import Mathlib

/-!
Shallow embedding of the fact-verification inference backend
(`inference_backend/src`): claim detection, evidence search providers,
evidence ranking/labelling, the aggregate orchestrator loop and the
streaming event generator, together with theorems checking the
natural-language specification against this embedding.

Python floats are modelled as rationals (`ℚ`); `math.log` (used only inside
the BM25 inverse-document-frequency weight) is modelled as an abstract
function parameter `logf : ℚ → ℚ`, over which all theorems quantify.
Python strings are modelled as Lean `String`s with ASCII case semantics,
optional values (`None`) as `Option`, and a raised exception as
`Except.error`.
-/

namespace FactVerify

/-- The ASCII apostrophe character (several cue-word literals contain it). -/
def apoC : Char := Char.ofNat 39

/-- The ASCII apostrophe as a one-character string. -/
def apoS : String := String.mk [apoC]

/-- Python whitespace test used by `str.split` / `str.strip`. -/
def pyIsSpace (c : Char) : Bool :=
  c = ' ' || c = '\t' || c = '\n' || c = '\x0d' || c = '\x0b' || c = '\x0c'

/-- Python `str.strip()` with no arguments: trim whitespace from both ends. -/
def pyStrip (s : String) : String :=
  String.mk (((s.data.dropWhile pyIsSpace).reverse.dropWhile pyIsSpace).reverse)

/-- Python `str.rstrip()`: trim whitespace from the right end. -/
def pyRstrip (s : String) : String :=
  String.mk ((s.data.reverse.dropWhile pyIsSpace).reverse)

/-- Python `str.strip(chars)`: trim any of the given characters from both ends. -/
def pyStripChars (cs : List Char) (s : String) : String :=
  String.mk (((s.data.dropWhile (fun c => cs.contains c)).reverse.dropWhile
      (fun c => cs.contains c)).reverse)

/-- Helper for `pySplit`: accumulate the current run of non-whitespace characters. -/
def pySplitAux : List Char → List Char → List String
  | [], [] => []
  | [], acc => [String.mk acc.reverse]
  | c :: rest, acc =>
    if pyIsSpace c then
      if acc.isEmpty then pySplitAux rest []
      else String.mk acc.reverse :: pySplitAux rest []
    else pySplitAux rest (c :: acc)

/-- Python `str.split()` with no arguments: split on whitespace runs, dropping empties. -/
def pySplit (s : String) : List String := pySplitAux s.data []

/-- Python `str.lower()` (ASCII range, which is all the sources rely on). -/
def pyLower (s : String) : String := String.mk (s.data.map Char.toLower)

/-- Python `str.endswith(suffix)`. -/
def pyEndswith (s suffix : String) : Bool := suffix.data.isSuffixOf s.data

/-- Whether `needle` occurs as a contiguous sublist of the given list. -/
def listInfixOf (needle : List Char) : List Char → Bool
  | [] => needle.isEmpty
  | c :: rest => needle.isPrefixOf (c :: rest) || listInfixOf needle rest

/-- Python `needle in hay` for strings: substring containment. -/
def strContains (hay needle : String) : Bool := listInfixOf needle.data hay.data

/-- `_norm_text` from `evidence_scoring.py`: `(s or "").strip()`. -/
def norm_text (s : Option String) : String := pyStrip (s.getD "")

/-- `_NEGATION_CUES` from `evidence_scoring.py` (the source set literal lists
`can't` twice; the duplicate is kept and is harmless under `any`). -/
def NEGATION_CUES : List String :=
  ["not", "no", "never", "neither", "nor", "without", "none", "cannot",
   "can" ++ apoS ++ "t", "isn" ++ apoS ++ "t", "aren" ++ apoS ++ "t",
   "wasn" ++ apoS ++ "t", "weren" ++ apoS ++ "t", "don" ++ apoS ++ "t",
   "doesn" ++ apoS ++ "t", "didn" ++ apoS ++ "t", "won" ++ apoS ++ "t",
   "wouldn" ++ apoS ++ "t", "shouldn" ++ apoS ++ "t", "can" ++ apoS ++ "t"]

/-- `_CONTRADICTION_CUES` from `evidence_scoring.py`. -/
def CONTRADICTION_CUES : List String :=
  ["contradict", "refute", "refutes", "refuted", "false", "falsely",
   "debunk", "debunks", "debunked", "myth", "hoax", "incorrect",
   "misleading", "disprove", "disproves", "disproved"]

/-- Whether the lower-cased normalized title or snippet contains any
contradiction cue word (substring containment, as in the source). -/
def has_contradiction_cue (title snippet : Option String) : Bool :=
  CONTRADICTION_CUES.any (fun w =>
    strContains (pyLower (norm_text title)) w || strContains (pyLower (norm_text snippet)) w)

/-- Whether the lower-cased stripped claim contains any negation cue. -/
def claim_has_negation (claim : String) : Bool :=
  NEGATION_CUES.any (fun w => strContains (pyLower (pyStrip claim)) w)

/-- Whether the lower-cased normalized title or snippet contains any negation cue. -/
def evidence_has_negation (title snippet : Option String) : Bool :=
  NEGATION_CUES.any (fun w =>
    strContains (pyLower (norm_text title)) w || strContains (pyLower (norm_text snippet)) w)

/-- `_stance_heuristic` from `evidence_scoring.py`. -/
def stance_heuristic (claim : String) (title snippet : Option String) : ℚ :=
  if has_contradiction_cue title snippet then -(0.9 : ℚ)
  else if claim_has_negation claim = evidence_has_negation title snippet then (0.6 : ℚ)
  else -(0.6 : ℚ)

/-- C3: for every claim, title and snippet, the stance computed during ranking
is exactly −0.9 iff the lower-cased title or snippet contains a contradiction
cue; otherwise it is +0.6 exactly when the claim and the evidence text agree on
negation-cue presence and −0.6 exactly when they disagree; in particular the
stance takes only the three values −0.9, 0.6, −0.6 and lies in [−1, 1]. -/
theorem c3_stance_three_values (claim : String) (title snippet : Option String) :
    (stance_heuristic claim title snippet = -(0.9 : ℚ) ↔
      has_contradiction_cue title snippet = true)
    ∧ (stance_heuristic claim title snippet = (0.6 : ℚ) ↔
      (has_contradiction_cue title snippet = false ∧
        claim_has_negation claim = evidence_has_negation title snippet))
    ∧ (stance_heuristic claim title snippet = -(0.6 : ℚ) ↔
      (has_contradiction_cue title snippet = false ∧
        claim_has_negation claim ≠ evidence_has_negation title snippet))
    ∧ (stance_heuristic claim title snippet = -(0.9 : ℚ) ∨
       stance_heuristic claim title snippet = (0.6 : ℚ) ∨
       stance_heuristic claim title snippet = -(0.6 : ℚ))
    ∧ (-1 ≤ stance_heuristic claim title snippet ∧ stance_heuristic claim title snippet ≤ 1) := by
  unfold stance_heuristic
  cases hc : has_contradiction_cue title snippet with
  | true =>
    simp only [if_true]
    refine ⟨by simp, ?_, ?_, ?_, ?_⟩ <;> norm_num
  | false =>
    by_cases hn : claim_has_negation claim = evidence_has_negation title snippet <;>
      simp [hn] <;> norm_num

/-! ### Claim detection (`claim_detection.py`) -/

/-- `_ASSERTIVE_VERBS` from `claim_detection.py`. -/
def ASSERTIVE_VERBS : List String :=
  ["is", "are", "was", "were", "be", "been", "being",
   "has", "have", "had", "does", "do", "did",
   "claims", "claim", "states", "state", "reports", "report",
   "shows", "show", "demonstrates", "demonstrate", "confirms", "confirm",
   "suggests", "suggest"]

/-- `_MODAL_VERBS` from `claim_detection.py`. -/
def MODAL_VERBS : List String :=
  ["will", "would", "can", "could", "should", "must", "may", "might"]

/-- `_NON_CLAIM_LEADS` from `claim_detection.py`. -/
def NON_CLAIM_LEADS : List String :=
  ["who", "what", "when", "where", "why", "how", "which", "whom", "whose",
   "please", "note", "remember", "consider", "imagine",
   "let" ++ apoS ++ "s", "let", "ensure"]

/-- `_REPORTING_VERBS` from `claim_detection.py`. -/
def REPORTING_VERBS : List String := ["said", "says", "according", "reported", "reports"]

/-- `_has_terminal_punctuation` from `claim_detection.py`. -/
def has_terminal_punctuation (text : String) : Bool :=
  pyEndswith (pyRstrip text) "." || pyEndswith (pyRstrip text) "!" ||
    pyEndswith (pyRstrip text) "?"

/-- `_looks_like_question` from `claim_detection.py`. -/
def looks_like_question (text : String) (tokens : List String) : Bool :=
  if pyEndswith (pyStrip text) "?" then true
  else
    match tokens with
    | [] => false
    | t0 :: _ => NON_CLAIM_LEADS.contains t0

/-- `_has_verb_like` from `claim_detection.py`. -/
def has_verb_like (tokens : List String) : Bool :=
  tokens.any (fun t => ASSERTIVE_VERBS.contains t || MODAL_VERBS.contains t)

/-- Python `tok[:1].isupper()`: the first character exists and is uppercase. -/
def firstCharUpper (t : String) : Bool :=
  match t.data with
  | [] => false
  | c :: _ => c.isUpper

/-- Python `str.isupper()` (ASCII): some cased character, and every cased character uppercase. -/
def pyIsUpperStr (t : String) : Bool :=
  t.data.any (fun c => c.isAlpha) && t.data.all (fun c => !c.isAlpha || c.isUpper)

/-- `_has_numeric_or_named_like` from `claim_detection.py`: a digit anywhere in the
text, or a non-first raw token that starts uppercase or is all-caps of length > 1. -/
def has_numeric_or_named_like (tokens : List String) (text : String) : Bool :=
  text.data.any Char.isDigit ||
    (tokens.drop 1).any (fun tok => firstCharUpper tok || (decide (1 < tok.length) && pyIsUpperStr tok))

/-- The character set stripped by `_strip_quotes`. -/
def QUOTE_CHARS : List Char :=
  ['"', apoC, '“', '”', '‘', '’', '(', ')', '[', ']', Char.ofNat 123, Char.ofNat 125]

/-- `_strip_quotes` from `claim_detection.py`. -/
def strip_quotes (text : String) : String :=
  let stripped := pyStripChars QUOTE_CHARS (pyStrip text)
  if stripped = "" then pyStrip text else stripped

/-- The punctuation characters stripped from tokens inside `is_claim`. -/
def TOKEN_PUNCT : List Char :=
  ['.', ',', ';', ':', '!', '?', '"', apoC, '(', ')', '[', ']', Char.ofNat 123, Char.ofNat 125]

/-- `is_claim` from `claim_detection.py`. -/
def is_claim (sentence : String) : Bool :=
  if sentence = "" then false
  else
    let text := strip_quotes sentence
    if text.length < 6 then false
    else if 2000 < text.length then false
    else
      let tokens_raw := pySplit text
      let tokens := (tokens_raw.filter (fun t => pyStrip t != "")).map
        (fun t => pyLower (pyStripChars TOKEN_PUNCT t))
      if tokens = [] then false
      else if looks_like_question text tokens then false
      else
        let verbish := has_verb_like tokens
        let named := has_numeric_or_named_like tokens_raw text
        let terminal := has_terminal_punctuation text
        let lead_report :=
          match tokens.head? with
          | some t0 => REPORTING_VERBS.contains t0
          | none => false
        let score : Int :=
          (if verbish then 2 else 0) + (if named then 1 else 0) +
            (if terminal then 1 else 0) - (if lead_report then 1 else 0)
        decide (2 ≤ score)

/-- `filter_claims` from `claim_detection.py`. -/
def filter_claims (sentences : List String) : List String := sentences.filter is_claim

/-- `detect_claims` from `claim_detection.py` (on honest strings, `s or ""` is `s`). -/
def detect_claims (sentences : List String) : List Bool := sentences.map is_claim

/-- The claim's reading of the `is_claim` heuristic, assembled from the spec
sentence: length guards on the quote-stripped text, interrogative rejection,
then an integer score of +2 for an assertive/modal token, +1 if any token is
numeric (contains a digit) or any non-first token is capitalized or all-caps,
+1 for terminal punctuation and −1 for a reporting-verb lead, accepting iff
the score reaches 2. -/
def is_claim_spec (sentence : String) : Bool :=
  let text := strip_quotes sentence
  let tokens_raw := pySplit text
  let tokens := tokens_raw.map (fun t => pyLower (pyStripChars TOKEN_PUNCT t))
  if text.length < 6 ∨ 2000 < text.length then false
  else if looks_like_question text tokens then false
  else
    let score : Int :=
      (if has_verb_like tokens then 2 else 0) +
        (if tokens_raw.any (fun t => t.data.any Char.isDigit) ||
            (tokens_raw.drop 1).any
              (fun tok => firstCharUpper tok || (decide (1 < tok.length) && pyIsUpperStr tok))
          then 1 else 0) +
        (if has_terminal_punctuation text then 1 else 0) -
        (if (match tokens.head? with
             | some t0 => REPORTING_VERBS.contains t0
             | none => false)
          then 1 else 0)
    decide (2 ≤ score)

/-! ### Tokenizer facts used to settle C8 -/

theorem isDigit_not_space (c : Char) (hd : c.isDigit = true) : pyIsSpace c = false := by
  by_contra hs
  rw [Bool.not_eq_false] at hs
  simp only [pyIsSpace, Bool.or_eq_true, decide_eq_true_eq] at hs
  rcases hs with ((((h | h) | h) | h) | h) | h <;> subst h <;> exact absurd hd (by decide)

theorem dropWhile_eq_self_of_all {p : Char → Bool} {l : List Char}
    (h : l.all (fun c => !p c) = true) : l.dropWhile p = l := by
  cases l with
  | nil => rfl
  | cons c rest =>
    simp only [List.all_cons, Bool.and_eq_true, Bool.not_eq_true'] at h
    simp [List.dropWhile_cons, h.1]

theorem dropWhile_eq_nil_of_all {p : Char → Bool} {l : List Char}
    (h : l.all p = true) : l.dropWhile p = [] := by
  induction l with
  | nil => rfl
  | cons c rest ih =>
    simp only [List.all_cons, Bool.and_eq_true] at h
    simp [List.dropWhile_cons, h.1, ih h.2]

theorem pySplitAux_any_digit (l : List Char) : ∀ acc : List Char,
    (pySplitAux l acc).any (fun t => t.data.any Char.isDigit)
      = (acc.any Char.isDigit || l.any Char.isDigit) := by
  induction l with
  | nil =>
    intro acc
    cases acc with
    | nil => rfl
    | cons c cs =>
      simp [pySplitAux, String.mk, Bool.or_comm]
  | cons c rest ih =>
    intro acc
    simp only [pySplitAux]
    by_cases hs : pyIsSpace c = true
    · have hcd : c.isDigit = false := by
        by_contra h
        rw [Bool.not_eq_false] at h
        rw [isDigit_not_space c h] at hs
        exact Bool.false_ne_true hs
      rw [if_pos hs]
      by_cases ha : acc.isEmpty = true
      · have hacc : acc = [] := by
          cases acc with
          | nil => rfl
          | cons x xs => simp [List.isEmpty] at ha
        subst hacc
        rw [if_pos ha]
        rw [ih []]
        simp [hcd]
      · rw [if_neg ha]
        simp only [List.any_cons, ih [], String.mk, List.any_reverse, List.any_nil,
          Bool.false_or]
        simp [hcd]
    · rw [if_neg hs]
      rw [ih (c :: acc)]
      simp only [List.any_cons]
      cases c.isDigit <;> cases acc.any Char.isDigit <;> simp

theorem pySplitAux_mem_wsfree (l : List Char) : ∀ (acc : List Char) (t : String),
    acc.all (fun c => !pyIsSpace c) = true → t ∈ pySplitAux l acc →
    t.data ≠ [] ∧ t.data.all (fun c => !pyIsSpace c) = true := by
  induction l with
  | nil =>
    intro acc t hacc ht
    cases acc with
    | nil => simp [pySplitAux] at ht
    | cons c cs =>
      simp only [pySplitAux, List.mem_singleton] at ht
      subst ht
      refine ⟨by simp [String.mk], ?_⟩
      show ((c :: cs).reverse).all _ = true
      rw [List.all_reverse]
      exact hacc
  | cons c rest ih =>
    intro acc t hacc ht
    simp only [pySplitAux] at ht
    by_cases hs : pyIsSpace c = true
    · rw [if_pos hs] at ht
      by_cases ha : acc.isEmpty = true
      · rw [if_pos ha] at ht
        exact ih [] t rfl ht
      · rw [if_neg ha] at ht
        rcases List.mem_cons.mp ht with h | h
        · subst h
          have hacc' : acc ≠ [] := by
            intro h'
            subst h'
            exact ha rfl
          refine ⟨by simpa [String.mk] using hacc', ?_⟩
          show (acc.reverse).all _ = true
          rw [List.all_reverse]
          exact hacc
        · exact ih [] t rfl h
    · rw [if_neg hs] at ht
      refine ih (c :: acc) t ?_ ht
      rw [Bool.not_eq_true] at hs
      simp [List.all_cons, hacc, hs]

theorem pySplitAux_eq_nil (l : List Char) : ∀ acc : List Char,
    pySplitAux l acc = [] → acc = [] ∧ l.all pyIsSpace = true := by
  induction l with
  | nil =>
    intro acc h
    cases acc with
    | nil => exact ⟨rfl, rfl⟩
    | cons c cs => simp [pySplitAux] at h
  | cons c rest ih =>
    intro acc h
    simp only [pySplitAux] at h
    by_cases hs : pyIsSpace c = true
    · rw [if_pos hs] at h
      by_cases ha : acc.isEmpty = true
      · rw [if_pos ha] at h
        have hacc : acc = [] := by
          cases acc with
          | nil => rfl
          | cons x xs => simp [List.isEmpty] at ha
        exact ⟨hacc, by simp [List.all_cons, hs, (ih [] h).2]⟩
      · rw [if_neg ha] at h
        exact absurd h (by simp)
    · rw [if_neg hs] at h
      exact absurd (ih (c :: acc) h).1 (by simp)

theorem pyStrip_of_wsfree (t : String) (h : t.data.all (fun c => !pyIsSpace c) = true) :
    pyStrip t = t := by
  unfold pyStrip
  rw [dropWhile_eq_self_of_all h]
  rw [dropWhile_eq_self_of_all (by rw [List.all_reverse]; exact h)]
  rw [List.reverse_reverse]

theorem pyStrip_of_allws (t : String) (h : t.data.all pyIsSpace = true) :
    pyStrip t = "" := by
  unfold pyStrip
  rw [dropWhile_eq_nil_of_all h]
  rfl

theorem pyRstrip_of_allws (t : String) (h : t.data.all pyIsSpace = true) :
    pyRstrip t = "" := by
  unfold pyRstrip
  rw [dropWhile_eq_nil_of_all (by rw [List.all_reverse]; exact h)]
  rfl

theorem pySplit_filter_strip (s : String) :
    (pySplit s).filter (fun t => pyStrip t != "") = pySplit s := by
  apply List.filter_eq_self.mpr
  intro t ht
  have h := pySplitAux_mem_wsfree s.data [] t rfl ht
  rw [pyStrip_of_wsfree t h.2]
  simp only [bne_iff_ne, ne_eq]
  intro heq
  subst heq
  exact h.1 rfl

theorem pySplit_any_digit (s : String) :
    (pySplit s).any (fun t => t.data.any Char.isDigit) = s.data.any Char.isDigit := by
  simpa using pySplitAux_any_digit s.data []

/-- C8: `is_claim` behaves exactly as the claim describes: it rejects
quote-stripped texts shorter than 6 or longer than 2000 characters and
interrogative sentences, and otherwise accepts exactly when the integer score
(+2 assertive/modal token, +1 numeric token or capitalized/all-caps non-first
token, +1 terminal punctuation, −1 reporting-verb lead) is at least 2. -/
theorem c8_is_claim_matches_spec (s : String) : is_claim s = is_claim_spec s := by
  by_cases h0 : s = ""
  · subst h0
    decide
  · unfold is_claim is_claim_spec
    rw [if_neg h0]
    simp only [pySplit_filter_strip]
    by_cases h6 : (strip_quotes s).length < 6
    · simp [h6]
    · by_cases h2 : 2000 < (strip_quotes s).length
      · simp [h6, h2]
      · rw [if_neg h6, if_neg h2, if_neg (not_or.mpr ⟨h6, h2⟩)]
        by_cases hnil :
            (pySplit (strip_quotes s)).map (fun t => pyLower (pyStripChars TOKEN_PUNCT t)) = []
        · have hraw : pySplit (strip_quotes s) = [] := by
            rcases List.map_eq_nil_iff.mp hnil with h
            exact h
          have hws : (strip_quotes s).data.all pyIsSpace = true :=
            (pySplitAux_eq_nil _ [] hraw).2
          have hstrip : pyStrip (strip_quotes s) = "" := pyStrip_of_allws _ hws
          have hrstrip : pyRstrip (strip_quotes s) = "" := pyRstrip_of_allws _ hws
          rw [if_pos hnil]
          simp [hraw, looks_like_question, hstrip, has_terminal_punctuation, hrstrip,
            pyEndswith, List.isSuffixOf, List.isPrefixOf, has_verb_like]
        · rw [if_neg hnil]
          by_cases hq : looks_like_question (strip_quotes s)
              ((pySplit (strip_quotes s)).map (fun t => pyLower (pyStripChars TOKEN_PUNCT t))) = true
          · rw [if_pos hq, if_pos hq]
          · rw [if_neg hq, if_neg hq]
            simp only [has_numeric_or_named_like, pySplit_any_digit]

/-! ### Search providers and normalization (`search.py`) -/

/-- An evidence item: the `EvidenceItem`-like dict flowing through the pipeline.
Optional fields model dict keys that may be missing or `None`. -/
structure Item where
  title : Option String
  url : Option String
  snippet : Option String
  score : ℚ
  source : Option String
  metadata : Option (List (String × String))
deriving DecidableEq

/-- `_clean_text` from `search.py`: strip, and turn empty results into `None`. -/
def clean_text (s : Option String) : Option String :=
  match s with
  | none => none
  | some s => if pyStrip s = "" then none else some (pyStrip s)

/-- `_norm_result` from `search.py`: normalize one raw result, dropping it when
the cleaned url or title is missing/empty; `source`/`metadata` only kept when truthy. -/
def norm_result (url title snippet : Option String) (score : ℚ) (source : Option String)
    (metadata : Option (List (String × String))) : Option Item :=
  match clean_text url, clean_text title with
  | some u, some t =>
    some { title := some t, url := some u, snippet := clean_text snippet, score := score,
           source := match source with
             | some s => if s = "" then none else some s
             | none => none,
           metadata := match metadata with
             | some m => if m.isEmpty then none else some m
             | none => none }
  | _, _ => none

/-- A search backend: `search(query, top_k)` which may raise (`Except.error`). -/
def Provider : Type := String → Int → Except Unit (List Item)

/-- The `try/except` around a backend call: a raised exception degrades to `[]`. -/
def provider_results (p : Provider) (q : String) (k : Int) : List Item :=
  match p q k with
  | Except.ok r => r
  | Except.error _ => []

/-- The inner loop of `CompositeProvider.search` over one backend's results:
skip items without a usable or fresh url, append others, and stop early (third
component `true`) once `top_k` aggregated items are reached. -/
def composite_add : List Item → Int → List String → List Item → List String × List Item × Bool
  | [], _, seen, agg => (seen, agg, false)
  | r :: rs, k, seen, agg =>
    match r.url with
    | none => composite_add rs k seen agg
    | some u =>
      if u = "" ∨ seen.contains u then composite_add rs k seen agg
      else
        if k ≤ ((agg ++ [r]).length : Int) then (u :: seen, agg ++ [r], true)
        else composite_add rs k (u :: seen) (agg ++ [r])

/-- The backend loop of `CompositeProvider.search`. -/
def composite_search_aux : List Provider → String → Int → List String → List Item → List Item
  | [], _, _, _, agg => agg
  | p :: ps, q, k, seen, agg =>
    let step := composite_add (provider_results p q k) k seen agg
    if step.2.2 then step.2.1 else composite_search_aux ps q k step.1 step.2.1

/-- `CompositeProvider.search` from `search.py`. -/
def composite_search (ps : List Provider) (q : String) (k : Int) : List Item :=
  composite_search_aux ps q k [] []

/-- `web_search` from `search.py`, parametrized by the selected provider
(provider selection reads the environment, an excluded collaborator). -/
def web_search (p : Provider) (q : String) (k : Int) : List Item :=
  if q = "" then [] else provider_results p q k

/-- `_formulate_web_query_from_claim` from `search.py`. -/
def formulate_web_query_from_claim (claim : String) : String :=
  let text := pyStrip claim
  if text = "" then ""
  else
    let text := pyStripChars [' ', '"', apoC, '\n', '\t'] text
    let text := String.intercalate " " (pySplit text)
    let text := if pyEndswith text "." then String.mk text.data.dropLast else text
    let words := pySplit text
    if 20 < words.length then String.intercalate " " (words.take 20) else text

/-- `search_for_claim` from `search.py`. -/
def search_for_claim (p : Provider) (claim : String) (top_k : Int) : List Item :=
  let q := formulate_web_query_from_claim claim
  if q = "" then [] else web_search p q top_k

/-! ### Evidence scoring (`evidence_scoring.py`) -/

/-- `_STOPWORDS` from `evidence_scoring.py`. -/
def STOPWORDS : List String :=
  ["a", "an", "and", "or", "the", "to", "of", "in", "on", "for", "with", "by",
   "is", "are", "was", "were", "be", "been", "being", "as", "at", "from", "that",
   "this", "it", "its", "their", "his", "her", "they", "them", "we", "you",
   "your", "i", "me", "my", "our", "ours", "but", "if", "then", "so", "than",
   "too", "very", "can", "could", "should", "would", "will", "may", "might",
   "not", "no"]

/-- ASCII alphanumeric characters, the `[A-Za-z0-9]` class of `_TOKENIZER`. -/
def isAlnumAscii (c : Char) : Bool := c.isAlpha || c.isDigit

/-- `re.findall` of maximal `[A-Za-z0-9]+` runs. -/
def findallAlnum : List Char → List Char → List String
  | [], [] => []
  | [], acc => [String.mk acc.reverse]
  | c :: rest, acc =>
    if isAlnumAscii c then findallAlnum rest (c :: acc)
    else if acc.isEmpty then findallAlnum rest []
    else String.mk acc.reverse :: findallAlnum rest []

/-- Python `str.isdigit()` (ASCII): nonempty and all digits. -/
def pyIsDigit (t : String) : Bool := !t.data.isEmpty && t.data.all Char.isDigit

/-- `_tokens` from `evidence_scoring.py`: lower-cased alnum tokens, stop-words
removed, keeping tokens longer than 2 characters or fully numeric. -/
def tokens (text : String) : List String :=
  ((findallAlnum text.data []).map pyLower).filter
    (fun t => !STOPWORDS.contains t && (decide (2 < t.length) || pyIsDigit t))

/-- `_build_doc` from `evidence_scoring.py`. -/
def build_doc (text : String) (title : String) : List String :=
  let parts := (if title ≠ "" then [title] else []) ++ (if text ≠ "" then [text] else [])
  tokens (String.intercalate " " parts)

/-- `_idf` from `evidence_scoring.py`; `logf` stands for `math.log`. -/
def idf (logf : ℚ → ℚ) (term : String) (df_map : String → ℕ) (N : ℕ) : ℚ :=
  let df : ℚ := (max 1 (df_map term) : ℕ)
  logf (((N : ℚ) - df + 0.5) / (df + 0.5) + 1)

/-- `_bm25_lite` from `evidence_scoring.py` (`k1 = 1.2`, `b = 0.75`). -/
def bm25_lite (logf : ℚ → ℚ) (query_tokens doc_tokens : List String) (avgdl : ℚ)
    (df_map : String → ℕ) (N : ℕ) : ℚ :=
  if query_tokens = [] ∨ doc_tokens = [] then 0
  else
    let k1 : ℚ := 1.2
    let b : ℚ := 0.75
    let dl : ℚ := doc_tokens.length
    let score := (query_tokens.map (fun q =>
      if doc_tokens.count q = 0 then 0
      else
        let tf : ℚ := doc_tokens.count q
        let denom := tf + k1 * (1 - b + b * (dl / (if 0 < avgdl then avgdl else 1)))
        idf logf q df_map N * ((tf * (k1 + 1)) / denom))).sum
    max 0 score

/-- `_jaccard` from `evidence_scoring.py`. -/
def jaccard (query_tokens doc_tokens : List String) : ℚ :=
  if query_tokens = [] ∨ doc_tokens = [] then 0
  else
    let qs := query_tokens.dedup
    let ds := doc_tokens.dedup
    let inter := (qs.filter (fun t => ds.contains t)).length
    let union := (qs ++ ds).dedup.length
    if union = 0 then 0 else (inter : ℚ) / (union : ℚ)

/-- `_corpus_stats` from `evidence_scoring.py`: average doc length, document
frequency map, total docs. -/
def corpus_stats (docs : List (List String)) : ℚ × (String → ℕ) × ℕ :=
  if docs = [] then (0, fun _ => 0, 0)
  else
    let N := docs.length
    let total_len := (docs.map List.length).sum
    ((total_len : ℚ) / ((max 1 N : ℕ) : ℚ),
     fun t => (docs.filter (fun d => d.contains t)).length, N)

/-- `_similarity_score` from `evidence_scoring.py`: `0.8*BM25 + 0.2*Jaccard`. -/
def similarity_score (logf : ℚ → ℚ) (claim : String) (title snippet : Option String)
    (avgdl : ℚ) (df_map : String → ℕ) (N : ℕ) : ℚ :=
  let q := tokens (norm_text (some claim))
  let d := build_doc (norm_text snippet) (norm_text title)
  if q = [] ∨ d = [] then 0
  else 0.8 * bm25_lite logf q d avgdl df_map N + 0.2 * jaccard q d

/-- An evidence item enriched by `_score_items_for_claim`. -/
structure ScoredItem where
  orig : Item
  similarity : ℚ
  stance : ℚ
  score : ℚ
  support_score : ℚ
  refute_score : ℚ
deriving DecidableEq

/-- `_score_items_for_claim` from `evidence_scoring.py`. -/
def score_items_for_claim (logf : ℚ → ℚ) (claim : String) (items : List Item)
    (avgdl : ℚ) (df_map : String → ℕ) (N : ℕ) : List ScoredItem :=
  items.map (fun it =>
    let title := it.title.getD ""
    let snippet := it.snippet.getD ""
    let sim := similarity_score logf claim (some title) (some snippet) avgdl df_map N
    let stance := stance_heuristic claim (some title) (some snippet)
    { orig := it, similarity := sim, stance := stance,
      score := sim * |stance|,
      support_score := sim * max 0 stance,
      refute_score := sim * max 0 (-stance) })

/-- `_gather_corpus_docs` from `evidence_scoring.py`. -/
def gather_corpus_docs (items : List Item) : List (List String) :=
  items.map (fun it =>
    build_doc (pyStrip (it.snippet.getD "")) (pyStrip (it.title.getD "")))

/-- The minimal evidence dict produced by `_minimalize`. -/
structure MinItem where
  title : String
  url : String
  snippet : Option String
  score : ℚ
  source : Option String
  metadata : Option (List (String × String))
deriving DecidableEq

/-- The per-item projection inside `_minimalize`. -/
def minimalize1 (x : ScoredItem) : MinItem :=
  { title := x.orig.title.getD "", url := x.orig.url.getD "", snippet := x.orig.snippet,
    score := x.score, source := x.orig.source, metadata := x.orig.metadata }

/-- `_minimalize` from `evidence_scoring.py`. -/
def minimalize (items : List ScoredItem) : List MinItem := items.map minimalize1

/-- The stable descending comparison used by the `list.sort(..., reverse=True)`
calls: sort by the directional score, similarity as tie-break. -/
def rankKeyLe (f : ScoredItem → ℚ) (a b : ScoredItem) : Bool :=
  decide (f b < f a ∨ (f b = f a ∧ b.similarity ≤ a.similarity))

/-- `rank_and_label_evidence_for_claim` from `evidence_scoring.py`. -/
def rank_and_label_evidence_for_claim (logf : ℚ → ℚ) (claim : String)
    (evidence : List Item) (top_k_support top_k_refute : Int) :
    List MinItem × List MinItem × ℚ × String :=
  if claim = "" ∨ evidence = [] then ([], [], 0, "NEI")
  else
    let stats := corpus_stats (gather_corpus_docs evidence)
    let scored := score_items_for_claim logf claim evidence stats.1 stats.2.1 stats.2.2
    let support_items := scored.filter (fun x => decide (0 < x.support_score))
    let refute_items := scored.filter (fun x => decide (0 < x.refute_score))
    let top_support :=
      (support_items.mergeSort (rankKeyLe (fun x => x.support_score))).take
        (max 0 top_k_support).toNat
    let top_refute :=
      (refute_items.mergeSort (rankKeyLe (fun x => x.refute_score))).take
        (max 0 top_k_refute).toNat
    let support_sum := (top_support.map (fun x => x.support_score)).sum
    let refute_sum := (top_refute.map (fun x => x.refute_score)).sum
    let aggregate := support_sum - refute_sum
    let label :=
      if max 0.6 (1.2 * refute_sum) ≤ support_sum ∧ 0 < top_support.length then "SUPPORTED"
      else if max 0.6 (1.2 * support_sum) ≤ refute_sum ∧ 0 < top_refute.length then "REFUTED"
      else "NEI"
    (minimalize top_support, minimalize top_refute, aggregate, label)

/-- `categorize_and_score` from `evidence_scoring.py`: the dict it returns is
modelled as the 4-tuple `(supporting_evidence, refuting_evidence, score, label)`. -/
def categorize_and_score (logf : ℚ → ℚ) (claim : String) (evidence : List Item)
    (top_k : Int) : List MinItem × List MinItem × ℚ × String :=
  rank_and_label_evidence_for_claim logf claim evidence top_k top_k

/-! ### Orchestrator and streaming (`api/routes/inference.py`) -/

/-- The `ClaimResult` record built by the aggregate route. -/
structure ClaimResult where
  claim : String
  sentence_index : ℕ
  supporting_evidence : List MinItem
  refuting_evidence : List MinItem
  score : ℚ
  label : String
deriving DecidableEq

/-- `search_limit = max(1, min(50, top_k))` from both routes. -/
def search_limit (top_k : Int) : Int := max 1 (min 50 top_k)

/-- The per-claim body of the `run_inference` loop: search then score. -/
def claim_result_for (logf : ℚ → ℚ) (p : Provider) (top_k : Int) (idx : ℕ)
    (s : String) : ClaimResult :=
  let evidence := search_for_claim p s (search_limit top_k)
  let scored := categorize_and_score logf s evidence top_k
  { claim := s, sentence_index := idx, supporting_evidence := scored.1,
    refuting_evidence := scored.2.1, score := scored.2.2.1, label := scored.2.2.2 }

/-- The claim-processing loop of `run_inference` (steps 3 and 4): one
`ClaimResult` per detected claim sentence, in original sentence order. -/
def run_claim_results (logf : ℚ → ℚ) (p : Provider) (top_k : Int)
    (sentences : List String) : List ClaimResult :=
  (sentences.enum.filter (fun pr => is_claim pr.2)).map
    (fun pr => claim_result_for logf p top_k pr.1 pr.2)

/-- A streamed event, as assembled by `_generate` via the `make_*_event`
helpers (payload fields relevant to the spec are retained). -/
inductive Event where
  | sentence (text : String) (isClaim : Bool) (seq : ℕ) (progress : ℚ)
  | evidence (claim : String) (sentence_index : ℕ) (items : List Item) (seq : ℕ) (progress : ℚ)
  | score (claim : String) (sentence_index : ℕ) (supporting refuting : List MinItem)
      (score : ℚ) (label : String) (seq : ℕ) (progress : ℚ)
  | done (seq : ℕ)
deriving DecidableEq

/-- The `seq` field of an event. -/
def Event.seq : Event → ℕ
  | .sentence _ _ sq _ => sq
  | .evidence _ _ _ sq _ => sq
  | .score _ _ _ _ _ _ sq _ => sq
  | .done sq => sq

/-- The recursion inside `_generate`, threading the sentence index and the
global `seq` counter. -/
def generate_events (logf : ℚ → ℚ) (p : Provider) (top_k : Int) (total : ℕ) :
    ℕ → ℕ → List String → List Event
  | _, seq, [] => [Event.done seq]
  | idx, seq, s :: rest =>
    let progress : ℚ := ((idx : ℚ) + 1) / (total : ℚ)
    if is_claim s then
      let ev := search_for_claim p s (search_limit top_k)
      let scored := categorize_and_score logf s ev top_k
      Event.sentence s true seq progress
        :: Event.evidence s idx ev (seq + 1) progress
        :: Event.score s idx scored.1 scored.2.1 scored.2.2.1 scored.2.2.2 (seq + 2) progress
        :: generate_events logf p top_k total (idx + 1) (seq + 3) rest
    else
      Event.sentence s false seq progress
        :: generate_events logf p top_k total (idx + 1) (seq + 1) rest

/-- `_generate` from the `/inference/stream` route, for an input whose
sentencization yields `sentences` (sentencization is an external collaborator). -/
def stream_events (logf : ℚ → ℚ) (p : Provider) (top_k : Int)
    (sentences : List String) : List Event :=
  generate_events logf p top_k (max 1 sentences.length) 0 0 sentences

/-! ### Theorems for the empty-input law and normalization -/

/-- C4: with an empty claim string, or with an empty evidence list, the ranker
returns `([], [], 0.0, "NEI")` immediately. -/
theorem c4_empty_inputs (logf : ℚ → ℚ) (k1 k2 : Int) :
    (∀ evidence : List Item,
      rank_and_label_evidence_for_claim logf "" evidence k1 k2 = ([], [], 0, "NEI"))
    ∧ (∀ claim : String,
      rank_and_label_evidence_for_claim logf claim [] k1 k2 = ([], [], 0, "NEI")) := by
  constructor
  · intro evidence
    simp [rank_and_label_evidence_for_claim]
  · intro claim
    simp [rank_and_label_evidence_for_claim]

theorem clean_text_eq_none (x : Option String) :
    clean_text x = none ↔ pyStrip (x.getD "") = "" := by
  cases x with
  | none =>
    simp only [clean_text, Option.getD_none]
    exact ⟨fun _ => rfl, fun _ => trivial⟩
  | some s =>
    simp only [clean_text, Option.getD_some]
    by_cases h : pyStrip s = "" <;> simp [h]

theorem clean_text_eq_some (x : Option String) (u : String) (h : clean_text x = some u) :
    u = pyStrip (x.getD "") ∧ pyStrip (x.getD "") ≠ "" := by
  cases x with
  | none => exact absurd h (by simp [clean_text])
  | some s =>
    simp only [clean_text, Option.getD_some] at h ⊢
    by_cases hs : pyStrip s = ""
    · rw [if_pos hs] at h
      exact absurd h (by simp)
    · rw [if_neg hs] at h
      exact ⟨(Option.some_injective _ h).symm, hs⟩

/-- C7: `_norm_result` drops an item iff its trimmed url or title is empty, and
any surviving item carries the non-empty trimmed title and url, with the
snippet possibly absent (it is the cleaned snippet, `none` when missing/blank). -/
theorem c7_norm_result_normalization (url title snippet : Option String) (score : ℚ)
    (source : Option String) (metadata : Option (List (String × String))) :
    (norm_result url title snippet score source metadata = none ↔
      (pyStrip (url.getD "") = "" ∨ pyStrip (title.getD "") = ""))
    ∧ ∀ item, norm_result url title snippet score source metadata = some item →
        item.title = some (pyStrip (title.getD "")) ∧ pyStrip (title.getD "") ≠ ""
        ∧ item.url = some (pyStrip (url.getD "")) ∧ pyStrip (url.getD "") ≠ ""
        ∧ item.snippet = clean_text snippet := by
  constructor
  · cases hu : clean_text url with
    | none =>
      cases ht : clean_text title with
      | none => simp [norm_result, hu, ht, (clean_text_eq_none url).mp hu]
      | some t => simp [norm_result, hu, ht, (clean_text_eq_none url).mp hu]
    | some u =>
      cases ht : clean_text title with
      | none => simp [norm_result, hu, ht, (clean_text_eq_none title).mp ht]
      | some t =>
        simp only [norm_result, hu, ht]
        constructor
        · intro h
          exact absurd h (by simp)
        · intro h
          rcases h with h | h
          · exact absurd ((clean_text_eq_none url).mpr h) (by simp [hu])
          · exact absurd ((clean_text_eq_none title).mpr h) (by simp [ht])
  · intro item h
    cases hu : clean_text url with
    | none =>
      cases ht : clean_text title with
      | none => simp [norm_result, hu, ht] at h
      | some t => simp [norm_result, hu, ht] at h
    | some u =>
      cases ht : clean_text title with
      | none => simp [norm_result, hu, ht] at h
      | some t =>
        simp only [norm_result, hu, ht] at h
        have hu' := clean_text_eq_some url u hu
        have ht' := clean_text_eq_some title t ht
        have := Option.some_injective _ h
        subst this
        refine ⟨by simp [← ht'.1], ht'.2, by simp [← hu'.1], hu'.2, rfl⟩

/-! ### Theorems for the composite provider -/

theorem composite_add_spec (k : Int) : ∀ (rs : List Item) (seen : List String) (agg : List Item),
    (∀ r ∈ agg, ∃ u, r.url = some u ∧ seen.contains u = true) →
    (agg.map Item.url).Nodup →
    (∀ r ∈ (composite_add rs k seen agg).2.1, ∃ u, r.url = some u ∧
      (composite_add rs k seen agg).1.contains u = true)
    ∧ ((composite_add rs k seen agg).2.1.map Item.url).Nodup
    ∧ ((agg.length : Int) < k →
        (((composite_add rs k seen agg).2.1.length : Int) ≤ k ∧
          ((composite_add rs k seen agg).2.2 = false →
            ((composite_add rs k seen agg).2.1.length : Int) < k))) := by
  intro rs
  induction rs with
  | nil =>
    intro seen agg h1 h2
    exact ⟨h1, h2, fun hlen => ⟨le_of_lt hlen, fun _ => hlen⟩⟩
  | cons r rs ih =>
    intro seen agg h1 h2
    cases hurl : r.url with
    | none =>
      simp only [composite_add, hurl]
      exact ih seen agg h1 h2
    | some u =>
      simp only [composite_add, hurl]
      by_cases hskip : u = "" ∨ seen.contains u = true
      · rw [if_pos (by simpa using hskip)]
        exact ih seen agg h1 h2
      · rw [if_neg (by simpa using hskip)]
        have h1' : ∀ x ∈ agg ++ [r], ∃ v, x.url = some v ∧ (u :: seen).contains v = true := by
          intro x hx
          rcases List.mem_append.mp hx with hx | hx
          · obtain ⟨v, hv1, hv2⟩ := h1 x hx
            refine ⟨v, hv1, List.elem_eq_true_of_mem ?_⟩
            exact List.mem_cons_of_mem _ (List.mem_of_elem_eq_true hv2)
          · rw [List.mem_singleton.mp hx]
            exact ⟨u, hurl, List.elem_eq_true_of_mem (List.mem_cons_self _ _)⟩
        have h2' : ((agg ++ [r]).map Item.url).Nodup := by
          rw [List.map_append, List.map_singleton]
          refine List.Nodup.append h2 (List.nodup_singleton _) ?_
          intro o ho ho'
          rw [List.mem_singleton.mp ho'] at ho
          obtain ⟨x, hx, hxu⟩ := List.mem_map.mp ho
          obtain ⟨v, hv1, hv2⟩ := h1 x hx
          rw [hv1] at hxu
          rw [hurl] at hxu
          have : v = u := Option.some_injective _ hxu
          subst this
          exact hskip (Or.inr hv2)
        by_cases hstop : k ≤ ((agg ++ [r]).length : Int)
        · rw [if_pos hstop]
          refine ⟨h1', h2', fun hlen => ⟨?_, fun h => by simp at h⟩⟩
          simp only [List.length_append, List.length_singleton]
          push_cast
          omega
        · rw [if_neg hstop]
          refine ⟨(ih _ _ h1' h2').1, (ih _ _ h1' h2').2.1, fun _ => ?_⟩
          exact (ih _ _ h1' h2').2.2 (by omega)

theorem composite_search_aux_spec (q : String) (k : Int) :
    ∀ (ps : List Provider) (seen : List String) (agg : List Item),
    (∀ r ∈ agg, ∃ u, r.url = some u ∧ seen.contains u = true) →
    (agg.map Item.url).Nodup →
    ((composite_search_aux ps q k seen agg).map Item.url).Nodup
    ∧ ((agg.length : Int) < k →
        ((composite_search_aux ps q k seen agg).length : Int) ≤ k) := by
  intro ps
  induction ps with
  | nil =>
    intro seen agg h1 h2
    exact ⟨h2, fun hlen => le_of_lt hlen⟩
  | cons p ps ih =>
    intro seen agg h1 h2
    have spec := composite_add_spec k (provider_results p q k) seen agg h1 h2
    simp only [composite_search_aux]
    by_cases hstop : (composite_add (provider_results p q k) k seen agg).2.2 = true
    · rw [if_pos hstop]
      exact ⟨spec.2.1, fun hlen => (spec.2.2 hlen).1⟩
    · rw [if_neg hstop]
      have hrec := ih _ _ spec.1 spec.2.1
      refine ⟨hrec.1, fun hlen => ?_⟩
      exact hrec.2 ((spec.2.2 hlen).2 (by simpa using hstop))

/-- C6: a backend that raises on every call is skipped by the composite
provider, so the composite over it plus fallbacks returns exactly what the
fallbacks return (no exception propagates); moreover, for any backend list the
composite's output has pairwise-distinct urls (URL de-duplication) and, for
`limit ≥ 1`, at most `limit` items (early termination at the limit). -/
theorem c6_composite_fallback (f : Provider) (ps : List Provider) (q : String) (k : Int)
    (hf : ∀ q' k', f q' k' = Except.error ()) :
    composite_search (f :: ps) q k = composite_search ps q k
    ∧ ((composite_search ps q k).map Item.url).Nodup
    ∧ (1 ≤ k → ((composite_search ps q k).length : Int) ≤ k) := by
  refine ⟨?_, ?_, ?_⟩
  · simp [composite_search, composite_search_aux, provider_results, hf, composite_add]
  · exact (composite_search_aux_spec q k ps [] [] (by simp) (by simp)).1
  · intro hk
    exact (composite_search_aux_spec q k ps [] [] (by simp) (by simp)).2 (by simpa using hk)

/-- Witness for C6 at a concrete failing backend plus a working fallback. -/
theorem c6_composite_fallback_witness :
    composite_search [fun _ _ => Except.error (), fun _ _ =>
        Except.ok [{ title := some "t", url := some "u", snippet := none, score := 0,
                     source := none, metadata := none }]] "q" 1
      = composite_search [fun _ _ =>
          Except.ok [{ title := some "t", url := some "u", snippet := none, score := 0,
                       source := none, metadata := none }]] "q" 1
    ∧ ((composite_search [fun _ _ =>
          Except.ok [{ title := some "t", url := some "u", snippet := none, score := 0,
                       source := none, metadata := none }]] "q" 1).length : Int) ≤ 1 := by
  have h := c6_composite_fallback (fun _ _ => Except.error ())
    [fun _ _ => Except.ok [{ title := some "t", url := some "u", snippet := none, score := 0,
                             source := none, metadata := none }]] "q" 1 (fun _ _ => rfl)
  exact ⟨h.1, h.2.2 (by norm_num)⟩

/-- Witness for C7: a concrete raw result with whitespace-padded fields. -/
theorem c7_norm_result_normalization_witness :
    ({ title := some "T", url := some "http://x", snippet := none, score := 0,
       source := none, metadata := none } : Item).title
        = some (pyStrip ((some " T " : Option String).getD ""))
    ∧ pyStrip ((some " T " : Option String).getD "") ≠ ""
    ∧ ({ title := some "T", url := some "http://x", snippet := none, score := 0,
         source := none, metadata := none } : Item).url
        = some (pyStrip ((some " http://x " : Option String).getD ""))
    ∧ pyStrip ((some " http://x " : Option String).getD "") ≠ ""
    ∧ ({ title := some "T", url := some "http://x", snippet := none, score := 0,
         source := none, metadata := none } : Item).snippet = clean_text none :=
  (c7_norm_result_normalization (some " http://x ") (some " T ") none 0 none none).2
    { title := some "T", url := some "http://x", snippet := none, score := 0,
      source := none, metadata := none } rfl

/-! ### Theorems for the orchestrator -/

theorem rank_nil (logf : ℚ → ℚ) (claim : String) (k1 k2 : Int) :
    rank_and_label_evidence_for_claim logf claim [] k1 k2 = ([], [], 0, "NEI") := by
  simp [rank_and_label_evidence_for_claim]

theorem enum_filter_map_snd (sentences : List String) :
    (sentences.enum.filter (fun pr => is_claim pr.2)).map Prod.snd
      = sentences.filter is_claim := by
  induction sentences using List.reverseRecOn with
  | nil => rfl
  | append_singleton l a ih =>
    rw [List.enum_append, List.filter_append, List.map_append, List.filter_append, ih]
    simp [List.filter_singleton]
    by_cases h : is_claim a <;> simp [h]

/-- C9: the aggregate orchestrator produces one `ClaimResult` per detected
claim sentence, in original sentence order, for every provider — including
ones that raise; a claim whose provider calls all raise still yields a result
with empty evidence, score 0 and label NEI, leaving the other claims' results
untouched. -/
theorem c9_per_claim_isolation (logf : ℚ → ℚ) (p : Provider) (top_k : Int)
    (sentences : List String) :
    (run_claim_results logf p top_k sentences).length = (sentences.filter is_claim).length
    ∧ (run_claim_results logf p top_k sentences).map ClaimResult.claim
        = sentences.filter is_claim
    ∧ (run_claim_results logf p top_k sentences).map ClaimResult.sentence_index
        = (sentences.enum.filter (fun pr => is_claim pr.2)).map Prod.fst
    ∧ ∀ r ∈ run_claim_results logf p top_k sentences,
        (∀ k', p (formulate_web_query_from_claim r.claim) k' = Except.error ()) →
        r.supporting_evidence = [] ∧ r.refuting_evidence = []
          ∧ r.score = 0 ∧ r.label = "NEI" := by
  have key : (run_claim_results logf p top_k sentences).map ClaimResult.claim
      = sentences.filter is_claim := by
    rw [run_claim_results, List.map_map, ← enum_filter_map_snd sentences]
    rfl
  refine ⟨?_, key, ?_, ?_⟩
  · rw [← key, List.length_map]
  · rw [run_claim_results, List.map_map]
    rfl
  · intro r hr herr
    rw [run_claim_results] at hr
    obtain ⟨pr, hpr, hreq⟩ := List.mem_map.mp hr
    subst hreq
    have herr' : ∀ k', p (formulate_web_query_from_claim pr.2) k' = Except.error () := herr
    have hev : search_for_claim p pr.2 (search_limit top_k) = [] := by
      unfold search_for_claim web_search provider_results
      by_cases hq : formulate_web_query_from_claim pr.2 = ""
      · simp [hq]
      · simp [hq, herr']
    simp [claim_result_for, categorize_and_score, hev, rank_nil]

/-- Witness for C9 at a concrete claim sentence and an always-raising provider. -/
theorem c9_per_claim_isolation_witness :
    (claim_result_for (fun _ => (0 : ℚ)) (fun _ _ => Except.error ()) 5 0
        "Paris is the capital of France.").supporting_evidence = []
    ∧ (claim_result_for (fun _ => (0 : ℚ)) (fun _ _ => Except.error ()) 5 0
        "Paris is the capital of France.").refuting_evidence = []
    ∧ (claim_result_for (fun _ => (0 : ℚ)) (fun _ _ => Except.error ()) 5 0
        "Paris is the capital of France.").score = 0
    ∧ (claim_result_for (fun _ => (0 : ℚ)) (fun _ _ => Except.error ()) 5 0
        "Paris is the capital of France.").label = "NEI" :=
  (c9_per_claim_isolation (fun _ => 0) (fun _ _ => Except.error ()) 5
    ["Paris is the capital of France."]).2.2.2
    (claim_result_for (fun _ => (0 : ℚ)) (fun _ _ => Except.error ()) 5 0
      "Paris is the capital of France.")
    (List.mem_singleton_self _)
    (fun _ => rfl)

/-! ### The ranker's internal stages, named for reasoning -/

/-- The scored evidence list built inside `rank_and_label_evidence_for_claim`. -/
def rank_scored (logf : ℚ → ℚ) (claim : String) (evidence : List Item) : List ScoredItem :=
  score_items_for_claim logf claim evidence
    (corpus_stats (gather_corpus_docs evidence)).1
    (corpus_stats (gather_corpus_docs evidence)).2.1
    (corpus_stats (gather_corpus_docs evidence)).2.2

/-- The kept (sorted, truncated) supporting items. -/
def rank_top_support (logf : ℚ → ℚ) (claim : String) (evidence : List Item) (k : Int) :
    List ScoredItem :=
  (((rank_scored logf claim evidence).filter
      (fun x => decide (0 < x.support_score))).mergeSort
    (rankKeyLe (fun x => x.support_score))).take (max 0 k).toNat

/-- The kept (sorted, truncated) refuting items. -/
def rank_top_refute (logf : ℚ → ℚ) (claim : String) (evidence : List Item) (k : Int) :
    List ScoredItem :=
  (((rank_scored logf claim evidence).filter
      (fun x => decide (0 < x.refute_score))).mergeSort
    (rankKeyLe (fun x => x.refute_score))).take (max 0 k).toNat

theorem rank_eq_of_ne (logf : ℚ → ℚ) (claim : String) (evidence : List Item)
    (k1 k2 : Int) (hc : claim ≠ "") (he : evidence ≠ []) :
    rank_and_label_evidence_for_claim logf claim evidence k1 k2 =
      (minimalize (rank_top_support logf claim evidence k1),
       minimalize (rank_top_refute logf claim evidence k2),
       ((rank_top_support logf claim evidence k1).map (fun x => x.support_score)).sum
         - ((rank_top_refute logf claim evidence k2).map (fun x => x.refute_score)).sum,
       if max 0.6 (1.2 * ((rank_top_refute logf claim evidence k2).map
              (fun x => x.refute_score)).sum)
            ≤ ((rank_top_support logf claim evidence k1).map (fun x => x.support_score)).sum
          ∧ 0 < (rank_top_support logf claim evidence k1).length
        then "SUPPORTED"
        else if max 0.6 (1.2 * ((rank_top_support logf claim evidence k1).map
              (fun x => x.support_score)).sum)
            ≤ ((rank_top_refute logf claim evidence k2).map (fun x => x.refute_score)).sum
          ∧ 0 < (rank_top_refute logf claim evidence k2).length
        then "REFUTED" else "NEI") := by
  unfold rank_and_label_evidence_for_claim rank_top_support rank_top_refute rank_scored
  rw [if_neg (by simp [hc, he])]

/-- The support score of a returned (minimalized) item, recomputed from its kept
fields against the original evidence corpus. -/
def min_support_score (logf : ℚ → ℚ) (claim : String) (evidence : List Item)
    (m : MinItem) : ℚ :=
  similarity_score logf claim (some m.title) (some (m.snippet.getD ""))
    (corpus_stats (gather_corpus_docs evidence)).1
    (corpus_stats (gather_corpus_docs evidence)).2.1
    (corpus_stats (gather_corpus_docs evidence)).2.2
    * max 0 (stance_heuristic claim (some m.title) (some (m.snippet.getD "")))

/-- The refute score of a returned (minimalized) item, recomputed likewise. -/
def min_refute_score (logf : ℚ → ℚ) (claim : String) (evidence : List Item)
    (m : MinItem) : ℚ :=
  similarity_score logf claim (some m.title) (some (m.snippet.getD ""))
    (corpus_stats (gather_corpus_docs evidence)).1
    (corpus_stats (gather_corpus_docs evidence)).2.1
    (corpus_stats (gather_corpus_docs evidence)).2.2
    * max 0 (-(stance_heuristic claim (some m.title) (some (m.snippet.getD ""))))

/-- Sum of recomputed support scores over a returned list. -/
def support_sum_of (logf : ℚ → ℚ) (claim : String) (evidence : List Item)
    (l : List MinItem) : ℚ :=
  (l.map (min_support_score logf claim evidence)).sum

/-- Sum of recomputed refute scores over a returned list. -/
def refute_sum_of (logf : ℚ → ℚ) (claim : String) (evidence : List Item)
    (l : List MinItem) : ℚ :=
  (l.map (min_refute_score logf claim evidence)).sum

theorem pos_of_mul_max_pos (a b : ℚ) (h : 0 < a * max 0 b) : 0 < b := by
  by_contra hb
  push_neg at hb
  rw [max_eq_left hb] at h
  simp at h

theorem scored_recompute (logf : ℚ → ℚ) (claim : String) (evidence : List Item)
    (x : ScoredItem) (hx : x ∈ rank_scored logf claim evidence) :
    min_support_score logf claim evidence (minimalize1 x) = x.support_score
    ∧ min_refute_score logf claim evidence (minimalize1 x) = x.refute_score
    ∧ (0 < x.support_score → 0 < x.stance)
    ∧ (0 < x.refute_score → x.stance < 0)
    ∧ x.stance = stance_heuristic claim (some (minimalize1 x).title)
        (some ((minimalize1 x).snippet.getD "")) := by
  obtain ⟨it, hit, hxe⟩ := List.mem_map.mp hx
  subst hxe
  refine ⟨rfl, rfl, fun h => pos_of_mul_max_pos _ _ h, fun h => ?_, rfl⟩
  have := pos_of_mul_max_pos _ _ h
  linarith

theorem mem_rank_top_support (logf : ℚ → ℚ) (claim : String) (evidence : List Item)
    (k : Int) (x : ScoredItem) (hx : x ∈ rank_top_support logf claim evidence k) :
    x ∈ rank_scored logf claim evidence ∧ 0 < x.support_score := by
  unfold rank_top_support at hx
  have h1 := List.mem_of_mem_take hx
  have h2 := (List.mergeSort_perm _ (rankKeyLe (fun x => x.support_score))).mem_iff.mp h1
  have h3 := List.mem_filter.mp h2
  exact ⟨h3.1, of_decide_eq_true h3.2⟩

theorem mem_rank_top_refute (logf : ℚ → ℚ) (claim : String) (evidence : List Item)
    (k : Int) (x : ScoredItem) (hx : x ∈ rank_top_refute logf claim evidence k) :
    x ∈ rank_scored logf claim evidence ∧ 0 < x.refute_score := by
  unfold rank_top_refute at hx
  have h1 := List.mem_of_mem_take hx
  have h2 := (List.mergeSort_perm _ (rankKeyLe (fun x => x.refute_score))).mem_iff.mp h1
  have h3 := List.mem_filter.mp h2
  exact ⟨h3.1, of_decide_eq_true h3.2⟩

theorem map_sum_minimalize (f : MinItem → ℚ) (g : ScoredItem → ℚ) (ts : List ScoredItem)
    (h : ∀ x ∈ ts, f (minimalize1 x) = g x) :
    ((minimalize ts).map f).sum = (ts.map g).sum := by
  unfold minimalize
  rw [List.map_map]
  congr 1
  exact List.map_congr_left h

theorem support_sum_of_minimalize (logf : ℚ → ℚ) (claim : String) (evidence : List Item)
    (k : Int) :
    support_sum_of logf claim evidence (minimalize (rank_top_support logf claim evidence k))
      = ((rank_top_support logf claim evidence k).map (fun x => x.support_score)).sum := by
  unfold support_sum_of
  exact map_sum_minimalize _ _ _ (fun x hx =>
    (scored_recompute logf claim evidence x (mem_rank_top_support logf claim evidence k x hx).1).1)

theorem refute_sum_of_minimalize (logf : ℚ → ℚ) (claim : String) (evidence : List Item)
    (k : Int) :
    refute_sum_of logf claim evidence (minimalize (rank_top_refute logf claim evidence k))
      = ((rank_top_refute logf claim evidence k).map (fun x => x.refute_score)).sum := by
  unfold refute_sum_of
  exact map_sum_minimalize _ _ _ (fun x hx =>
    (scored_recompute logf claim evidence x (mem_rank_top_refute logf claim evidence k x hx).1).2.1)

theorem minimalize_eq_nil (l : List ScoredItem) : minimalize l = [] ↔ l = [] := by
  simp [minimalize]

/-- C1: the ranker's supporting and refuting lists are no longer than the
requested `top_k_support` / `top_k_refute`, and the aggregate score equals the
sum of the support scores of exactly the returned supporting items minus the
sum of the refute scores of exactly the returned refuting items (each returned
item's directional score recomputed from its kept fields). -/
theorem c1_rank_topk_and_aggregate (logf : ℚ → ℚ) (claim : String) (evidence : List Item)
    (k1 k2 : ℕ) :
    (rank_and_label_evidence_for_claim logf claim evidence k1 k2).1.length ≤ k1
    ∧ (rank_and_label_evidence_for_claim logf claim evidence k1 k2).2.1.length ≤ k2
    ∧ (rank_and_label_evidence_for_claim logf claim evidence k1 k2).2.2.1
      = support_sum_of logf claim evidence
          (rank_and_label_evidence_for_claim logf claim evidence k1 k2).1
        - refute_sum_of logf claim evidence
          (rank_and_label_evidence_for_claim logf claim evidence k1 k2).2.1 := by
  by_cases hc : claim = ""
  · have h : rank_and_label_evidence_for_claim logf claim evidence k1 k2 = ([], [], 0, "NEI") := by
      simp [rank_and_label_evidence_for_claim, hc]
    rw [h]
    exact ⟨Nat.zero_le _, Nat.zero_le _, by simp [support_sum_of, refute_sum_of]⟩
  · by_cases he : evidence = []
    · rw [he, rank_nil]
      exact ⟨Nat.zero_le _, Nat.zero_le _, by simp [support_sum_of, refute_sum_of]⟩
    · rw [rank_eq_of_ne logf claim evidence k1 k2 hc he]
      refine ⟨?_, ?_, ?_⟩
      · show (minimalize (rank_top_support logf claim evidence k1)).length ≤ k1
        rw [minimalize, List.length_map]
        calc (rank_top_support logf claim evidence k1).length
            ≤ (max 0 ((k1 : ℕ) : Int)).toNat := List.length_take_le _ _
          _ = k1 := by omega
      · show (minimalize (rank_top_refute logf claim evidence k2)).length ≤ k2
        rw [minimalize, List.length_map]
        calc (rank_top_refute logf claim evidence k2).length
            ≤ (max 0 ((k2 : ℕ) : Int)).toNat := List.length_take_le _ _
          _ = k2 := by omega
      · show _ = support_sum_of logf claim evidence
              (minimalize (rank_top_support logf claim evidence k1))
            - refute_sum_of logf claim evidence
              (minimalize (rank_top_refute logf claim evidence k2))
        rw [support_sum_of_minimalize, refute_sum_of_minimalize]

/-- C10: the returned supporting and refuting lists are disjoint — no evidence
item appears in both, because a single stance value cannot make both the
support and the refute score of an item strictly positive. -/
theorem c10_support_refute_disjoint (logf : ℚ → ℚ) (claim : String) (evidence : List Item)
    (k1 k2 : Int) :
    ((rank_and_label_evidence_for_claim logf claim evidence k1 k2).1).inter
      ((rank_and_label_evidence_for_claim logf claim evidence k1 k2).2.1) = [] := by
  by_cases hc : claim = ""
  · have h : rank_and_label_evidence_for_claim logf claim evidence k1 k2 = ([], [], 0, "NEI") := by
      simp [rank_and_label_evidence_for_claim, hc]
    rw [h]
    rfl
  · by_cases he : evidence = []
    · rw [he, rank_nil]
      rfl
    · rw [rank_eq_of_ne logf claim evidence k1 k2 hc he]
      show (minimalize (rank_top_support logf claim evidence k1)).inter
        (minimalize (rank_top_refute logf claim evidence k2)) = []
      rw [show (minimalize (rank_top_support logf claim evidence k1)).inter
            (minimalize (rank_top_refute logf claim evidence k2))
          = minimalize (rank_top_support logf claim evidence k1)
            ∩ minimalize (rank_top_refute logf claim evidence k2) from rfl,
        List.eq_nil_iff_forall_not_mem]
      intro x hx
      rw [List.mem_inter_iff] at hx
      obtain ⟨hxs, hxr⟩ := hx
      rw [minimalize] at hxs hxr
      obtain ⟨a, ha, hax⟩ := List.mem_map.mp hxs
      obtain ⟨b, hb, hbx⟩ := List.mem_map.mp hxr
      have hamem := mem_rank_top_support logf claim evidence k1 a ha
      have hbmem := mem_rank_top_refute logf claim evidence k2 b hb
      have hra := scored_recompute logf claim evidence a hamem.1
      have hrb := scored_recompute logf claim evidence b hbmem.1
      have hap : 0 < a.stance := hra.2.2.1 hamem.2
      have hbp : b.stance < 0 := hrb.2.2.2.1 hbmem.2
      have has := hra.2.2.2.2
      have hbs := hrb.2.2.2.2
      rw [hax] at has
      rw [hbx] at hbs
      rw [has, ← hbs] at hap
      linarith

/-- C2: the ranker's label is SUPPORTED exactly when the kept supporting items'
score sum reaches `max(0.6, 1.2×refuteSum)` and at least one supporting item
was kept; REFUTED exactly when the symmetric condition holds and SUPPORTED does
not; otherwise NEI. -/
theorem c2_label_rule (logf : ℚ → ℚ) (claim : String) (evidence : List Item)
    (k1 k2 : Int) :
    ((rank_and_label_evidence_for_claim logf claim evidence k1 k2).2.2.2 = "SUPPORTED" ↔
      (max 0.6 (1.2 * refute_sum_of logf claim evidence
          (rank_and_label_evidence_for_claim logf claim evidence k1 k2).2.1)
        ≤ support_sum_of logf claim evidence
          (rank_and_label_evidence_for_claim logf claim evidence k1 k2).1
        ∧ (rank_and_label_evidence_for_claim logf claim evidence k1 k2).1 ≠ []))
    ∧ ((rank_and_label_evidence_for_claim logf claim evidence k1 k2).2.2.2 = "REFUTED" ↔
      (¬(max 0.6 (1.2 * refute_sum_of logf claim evidence
            (rank_and_label_evidence_for_claim logf claim evidence k1 k2).2.1)
          ≤ support_sum_of logf claim evidence
            (rank_and_label_evidence_for_claim logf claim evidence k1 k2).1
          ∧ (rank_and_label_evidence_for_claim logf claim evidence k1 k2).1 ≠ [])
        ∧ max 0.6 (1.2 * support_sum_of logf claim evidence
            (rank_and_label_evidence_for_claim logf claim evidence k1 k2).1)
          ≤ refute_sum_of logf claim evidence
            (rank_and_label_evidence_for_claim logf claim evidence k1 k2).2.1
        ∧ (rank_and_label_evidence_for_claim logf claim evidence k1 k2).2.1 ≠ []))
    ∧ ((rank_and_label_evidence_for_claim logf claim evidence k1 k2).2.2.2 = "NEI" ↔
      (¬(max 0.6 (1.2 * refute_sum_of logf claim evidence
            (rank_and_label_evidence_for_claim logf claim evidence k1 k2).2.1)
          ≤ support_sum_of logf claim evidence
            (rank_and_label_evidence_for_claim logf claim evidence k1 k2).1
          ∧ (rank_and_label_evidence_for_claim logf claim evidence k1 k2).1 ≠ [])
        ∧ ¬(max 0.6 (1.2 * support_sum_of logf claim evidence
            (rank_and_label_evidence_for_claim logf claim evidence k1 k2).1)
          ≤ refute_sum_of logf claim evidence
            (rank_and_label_evidence_for_claim logf claim evidence k1 k2).2.1
          ∧ (rank_and_label_evidence_for_claim logf claim evidence k1 k2).2.1 ≠ []))) := by
  by_cases hc : claim = ""
  · have h : rank_and_label_evidence_for_claim logf claim evidence k1 k2 = ([], [], 0, "NEI") := by
      simp [rank_and_label_evidence_for_claim, hc]
    rw [h]
    refine ⟨by simp, by simp, by simp⟩
  · by_cases he : evidence = []
    · rw [he, rank_nil]
      refine ⟨by simp, by simp, by simp⟩
    · rw [rank_eq_of_ne logf claim evidence k1 k2 hc he]
      by_cases hA : max 0.6 (1.2 * ((rank_top_refute logf claim evidence k2).map
            (fun x => x.refute_score)).sum)
          ≤ ((rank_top_support logf claim evidence k1).map (fun x => x.support_score)).sum
        <;> by_cases hL1 : 0 < (rank_top_support logf claim evidence k1).length
        <;> by_cases hB : max 0.6 (1.2 * ((rank_top_support logf claim evidence k1).map
              (fun x => x.support_score)).sum)
            ≤ ((rank_top_refute logf claim evidence k2).map (fun x => x.refute_score)).sum
        <;> by_cases hL2 : 0 < (rank_top_refute logf claim evidence k2).length
        <;> simp [hA, hL1, hB, hL2, support_sum_of_minimalize, refute_sum_of_minimalize,
              minimalize_eq_nil, List.length_pos, ← List.length_pos]

/-! ### Theorems for the streaming event protocol -/

/-- Event classifier: sentence events. -/
def isSentenceEv : Event → Bool
  | .sentence _ _ _ _ => true
  | _ => false

/-- Event classifier: evidence events. -/
def isEvidenceEv : Event → Bool
  | .evidence _ _ _ _ _ => true
  | _ => false

/-- Event classifier: score events. -/
def isScoreEv : Event → Bool
  | .score _ _ _ _ _ _ _ _ => true
  | _ => false

/-- Event classifier: done events. -/
def isDoneEv : Event → Bool
  | .done _ => true
  | _ => false

/-- The progress carried by a sentence event. -/
def sentenceProg : Event → Option ℚ
  | .sentence _ _ _ pr => some pr
  | _ => none

theorem gen_counts (logf : ℚ → ℚ) (p : Provider) (k : Int) (total : ℕ) :
    ∀ (sents : List String) (idx seq : ℕ),
    (generate_events logf p k total idx seq sents).countP isSentenceEv = sents.length
    ∧ (generate_events logf p k total idx seq sents).countP isEvidenceEv
        = (sents.filter is_claim).length
    ∧ (generate_events logf p k total idx seq sents).countP isScoreEv
        = (sents.filter is_claim).length
    ∧ (generate_events logf p k total idx seq sents).countP isDoneEv = 1 := by
  intro sents
  induction sents with
  | nil =>
    intro idx seq
    refine ⟨?_, ?_, ?_, ?_⟩ <;>
      simp [generate_events, List.countP_cons, isSentenceEv, isEvidenceEv, isScoreEv, isDoneEv]
  | cons s rest ih =>
    intro idx seq
    by_cases h : is_claim s = true
    · have hr := ih (idx + 1) (seq + 3)
      refine ⟨?_, ?_, ?_, ?_⟩ <;>
        simp [generate_events, h, List.countP_cons, List.filter_cons, isSentenceEv,
          isEvidenceEv, isScoreEv, isDoneEv, hr.1, hr.2.1, hr.2.2.1, hr.2.2.2]
    · have hr := ih (idx + 1) (seq + 1)
      refine ⟨?_, ?_, ?_, ?_⟩ <;>
        simp [generate_events, h, List.countP_cons, List.filter_cons, isSentenceEv,
          isEvidenceEv, isScoreEv, isDoneEv, hr.1, hr.2.1, hr.2.2.1, hr.2.2.2]

theorem gen_seqs (logf : ℚ → ℚ) (p : Provider) (k : Int) (total : ℕ) :
    ∀ (sents : List String) (idx seq : ℕ),
    (generate_events logf p k total idx seq sents).map Event.seq
      = List.range' seq (generate_events logf p k total idx seq sents).length := by
  intro sents
  induction sents with
  | nil =>
    intro idx seq
    simp [generate_events, Event.seq, List.range']
  | cons s rest ih =>
    intro idx seq
    by_cases h : is_claim s = true
    · simp [generate_events, h, Event.seq, ih (idx + 1) (seq + 3), List.range']
    · simp [generate_events, h, Event.seq, ih (idx + 1) (seq + 1), List.range']

theorem gen_progress (logf : ℚ → ℚ) (p : Provider) (k : Int) (total : ℕ) :
    ∀ (sents : List String) (idx seq : ℕ),
    (generate_events logf p k total idx seq sents).filterMap sentenceProg
      = (List.range' idx sents.length).map (fun i => ((i : ℚ) + 1) / (total : ℚ)) := by
  intro sents
  induction sents with
  | nil =>
    intro idx seq
    simp [generate_events, sentenceProg]
  | cons s rest ih =>
    intro idx seq
    by_cases h : is_claim s = true
    · simp [generate_events, h, List.filterMap_cons, sentenceProg, ih (idx + 1) (seq + 3),
        List.range']
    · simp [generate_events, h, List.filterMap_cons, sentenceProg, ih (idx + 1) (seq + 1),
        List.range']

theorem gen_ne_nil (logf : ℚ → ℚ) (p : Provider) (k : Int) (total : ℕ)
    (sents : List String) (idx seq : ℕ) :
    generate_events logf p k total idx seq sents ≠ [] := by
  cases sents with
  | nil => simp [generate_events]
  | cons s rest => by_cases h : is_claim s = true <;> simp [generate_events, h]

theorem getLast?_cons_ne (a : Event) (l : List Event) (h : l ≠ []) :
    (a :: l).getLast? = l.getLast? := by
  cases l with
  | nil => exact absurd rfl h
  | cons b t => rw [List.getLast?_cons_cons]

theorem gen_last (logf : ℚ → ℚ) (p : Provider) (k : Int) (total : ℕ) :
    ∀ (sents : List String) (idx seq : ℕ),
    (generate_events logf p k total idx seq sents).getLast?
      = some (Event.done (seq + sents.length + 2 * (sents.filter is_claim).length)) := by
  intro sents
  induction sents with
  | nil =>
    intro idx seq
    simp [generate_events]
  | cons s rest ih =>
    intro idx seq
    by_cases h : is_claim s = true
    · have hne := gen_ne_nil logf p k total rest (idx + 1) (seq + 3)
      simp only [generate_events, h]
      rw [if_pos trivial, List.getLast?_cons_cons, List.getLast?_cons_cons,
        getLast?_cons_ne _ _ hne, ih (idx + 1) (seq + 3)]
      congr 2
      rw [List.filter_cons, if_pos (by simp [h])]
      simp
      omega
    · have hne := gen_ne_nil logf p k total rest (idx + 1) (seq + 1)
      simp only [generate_events, h]
      rw [if_neg (by decide), getLast?_cons_ne _ _ hne, ih (idx + 1) (seq + 1)]
      congr 2
      rw [List.filter_cons, if_neg (by simp [h])]
      simp
      omega

theorem gen_head_not_evidence (logf : ℚ → ℚ) (p : Provider) (k : Int) (total : ℕ)
    (sents : List String) (idx seq : ℕ) (c : String) (i : ℕ) (ev : List Item)
    (sq : ℕ) (pr : ℚ) :
    (generate_events logf p k total idx seq sents).get? 0
      ≠ some (Event.evidence c i ev sq pr) := by
  cases sents with
  | nil => simp [generate_events]
  | cons s rest => by_cases h : is_claim s = true <;> simp [generate_events, h]

theorem gen_adjacent (logf : ℚ → ℚ) (p : Provider) (k : Int) (total : ℕ) :
    ∀ (sents : List String) (idx seq j : ℕ) (c : String) (i : ℕ) (ev : List Item)
      (sq : ℕ) (pr : ℚ),
    (generate_events logf p k total idx seq sents).get? j
        = some (Event.evidence c i ev sq pr) →
    (∃ sup ref sc lab, (generate_events logf p k total idx seq sents).get? (j + 1)
        = some (Event.score c i sup ref sc lab (sq + 1) pr))
    ∧ (generate_events logf p k total idx seq sents).get? (j - 1)
        = some (Event.sentence c true (sq - 1) pr) := by
  intro sents
  induction sents with
  | nil =>
    intro idx seq j c i ev sq pr h
    exfalso
    match j, h with
    | 0, h =>
      exact Event.noConfusion (Option.some.inj h)
    | j + 1, h => exact Option.noConfusion h
  | cons s rest ih =>
    intro idx seq j c i ev sq pr h
    by_cases hcl : is_claim s = true
    · simp only [generate_events, hcl, if_pos trivial] at h ⊢
      match j, h with
      | 0, h =>
        exact Event.noConfusion (Option.some.inj h)
      | 1, h =>
        have h1 := Option.some.inj h
        injection h1 with hc' hi' hev' hsq' hpr'
        subst hc'
        subst hi'
        subst hev'
        subst hsq'
        subst hpr'
        exact ⟨⟨_, _, _, _, rfl⟩, rfl⟩
      | 2, h =>
        exact Event.noConfusion (Option.some.inj h)
      | (j + 3), h =>
        match j, h with
        | 0, h =>
          exact absurd h
            (gen_head_not_evidence logf p k total rest (idx + 1) (seq + 3) c i ev sq pr)
        | (j + 1), h =>
          have h' : (generate_events logf p k total (idx + 1) (seq + 3) rest).get? (j + 1)
              = some (Event.evidence c i ev sq pr) := h
          have hres := ih (idx + 1) (seq + 3) (j + 1) c i ev sq pr h'
          exact ⟨hres.1, hres.2⟩
    · simp only [generate_events, if_neg hcl] at h ⊢
      match j, h with
      | 0, h =>
        exact Event.noConfusion (Option.some.inj h)
      | (j + 1), h =>
        match j, h with
        | 0, h =>
          exact absurd h
            (gen_head_not_evidence logf p k total rest (idx + 1) (seq + 1) c i ev sq pr)
        | (j + 1), h =>
          have h' : (generate_events logf p k total (idx + 1) (seq + 1) rest).get? (j + 1)
              = some (Event.evidence c i ev sq pr) := h
          have hres := ih (idx + 1) (seq + 1) (j + 1) c i ev sq pr h'
          exact ⟨hres.1, hres.2⟩

/-- C5: the stream for an input with `k` sentences, `m` of them detected
claims, has exactly `k` sentence events (whose progress values are
`(index+1)/total` in order), `m` evidence events, `m` score events and exactly
one final done event; `seq` starts at 0 and increments by exactly 1 per
emitted event across the whole stream; every evidence event is immediately
followed by its claim's score event and immediately preceded by that claim's
own sentence event. -/
theorem c5_stream_event_protocol (logf : ℚ → ℚ) (p : Provider) (top_k : Int)
    (sentences : List String) :
    (stream_events logf p top_k sentences).countP isSentenceEv = sentences.length
    ∧ (stream_events logf p top_k sentences).countP isEvidenceEv
        = (sentences.filter is_claim).length
    ∧ (stream_events logf p top_k sentences).countP isScoreEv
        = (sentences.filter is_claim).length
    ∧ (stream_events logf p top_k sentences).countP isDoneEv = 1
    ∧ (stream_events logf p top_k sentences).getLast?
        = some (Event.done (sentences.length + 2 * (sentences.filter is_claim).length))
    ∧ (stream_events logf p top_k sentences).map Event.seq
        = List.range (stream_events logf p top_k sentences).length
    ∧ (stream_events logf p top_k sentences).filterMap sentenceProg
        = (List.range sentences.length).map
            (fun i => ((i : ℚ) + 1) / ((max 1 sentences.length : ℕ) : ℚ))
    ∧ ∀ (j : ℕ) (c : String) (i : ℕ) (ev : List Item) (sq : ℕ) (pr : ℚ),
        (stream_events logf p top_k sentences).get? j
            = some (Event.evidence c i ev sq pr) →
        (∃ sup ref sc lab, (stream_events logf p top_k sentences).get? (j + 1)
            = some (Event.score c i sup ref sc lab (sq + 1) pr))
        ∧ (stream_events logf p top_k sentences).get? (j - 1)
            = some (Event.sentence c true (sq - 1) pr) := by
  have hc := gen_counts logf p top_k (max 1 sentences.length) sentences 0 0
  refine ⟨hc.1, hc.2.1, hc.2.2.1, hc.2.2.2, ?_, ?_, ?_, ?_⟩
  · have h := gen_last logf p top_k (max 1 sentences.length) sentences 0 0
    rw [stream_events, h]
    simp
  · have h := gen_seqs logf p top_k (max 1 sentences.length) sentences 0 0
    rw [stream_events, h, List.range_eq_range']
  · have h := gen_progress logf p top_k (max 1 sentences.length) sentences 0 0
    rw [stream_events, h, List.range_eq_range']
  · exact fun j c i ev sq pr h =>
      gen_adjacent logf p top_k (max 1 sentences.length) sentences 0 0 j c i ev sq pr h

/-- Witness for C5 at a concrete one-claim input with an always-raising provider. -/
theorem c5_stream_event_protocol_witness :
    (∃ sup ref sc lab,
      (stream_events (fun _ => (0 : ℚ)) (fun _ _ => Except.error ()) 5
          ["Paris is the capital of France."]).get? 2
        = some (Event.score "Paris is the capital of France." 0 sup ref sc lab 2
            ((((0 : ℕ) : ℚ) + 1)
              / ((max 1 (["Paris is the capital of France."] : List String).length : ℕ) : ℚ))))
    ∧ (stream_events (fun _ => (0 : ℚ)) (fun _ _ => Except.error ()) 5
          ["Paris is the capital of France."]).get? 0
        = some (Event.sentence "Paris is the capital of France." true 0
            ((((0 : ℕ) : ℚ) + 1)
              / ((max 1 (["Paris is the capital of France."] : List String).length : ℕ) : ℚ))) :=
  (c5_stream_event_protocol (fun _ => 0) (fun _ _ => Except.error ()) 5
      ["Paris is the capital of France."]).2.2.2.2.2.2.2
    1 "Paris is the capital of France." 0 [] 1
    ((((0 : ℕ) : ℚ) + 1)
      / ((max 1 (["Paris is the capital of France."] : List String).length : ℕ) : ℚ))
    rfl

end FactVerify
